import Mathlib

/-!
Verification of the HopScotchIRML retrieval and path-resolution core.

The definitions below are shallow embeddings of the Python source:
  * `src/app.py`        — `_chunk`, `_keyword_fallback`, `_retrieve` (with boost), `_build_index`
  * `src/app_chat.py`   — `_chunk`, `_keyword_fallback`, `_retrieve` (no boost), `_build_index`,
                          `get_step_config`, `_get_step_llm_guidance`, `set_methodology`
  * `src/create_index.py` — `chunk_text`, `main`

Python strings are modelled as Lean `String` (a list of characters); Python
`None`-able values as `Option`; Python dicts as association lists or typed
structures; exceptions as `Except`.  Scores are Python floats; every score the
keyword scorer produces is an integer (`count + 1`), and vector scores pass
through untouched from the abstract search capability, so scores are modelled
as `Int`.
-/

namespace Hopscotch

/-- Whitespace test matching Python's `\s` class (and `str.strip`) on the
ASCII range: space, tab, newline, carriage return, vertical tab, form feed. -/
def isPySpace (c : Char) : Bool :=
  c == Char.ofNat 32 || c == Char.ofNat 9 || c == Char.ofNat 10 ||
  c == Char.ofNat 13 || c == Char.ofNat 11 || c == Char.ofNat 12

/-- Model of `re.sub(r"\s+", " ", text)`: every maximal run of whitespace
characters is replaced by a single space.  The boolean tracks whether the
previous character belonged to a whitespace run already emitted. -/
def collapseWsAux : Bool → List Char → List Char
  | _, [] => []
  | prevSpace, c :: rest =>
    if isPySpace c then
      if prevSpace then collapseWsAux true rest
      else Char.ofNat 32 :: collapseWsAux true rest
    else c :: collapseWsAux false rest

/-- Model of Python `str.strip()`: drop whitespace from both ends. -/
def pyStripList (l : List Char) : List Char :=
  ((l.dropWhile isPySpace).reverse.dropWhile isPySpace).reverse

/-- Python `text.strip()` on strings. -/
def pyStrip (s : String) : String :=
  String.mk (pyStripList s.data)

/-- Python `text.lower()`; on the ASCII range this is `Char.toLower`. -/
def pyLower (s : String) : String :=
  String.mk (s.data.map Char.toLower)

/-- The whitespace normalisation both chunkers perform first:
`re.sub(r"\s+", " ", text).strip()`. -/
def normWs (s : String) : String :=
  String.mk (pyStripList (collapseWsAux false s.data))

/-- Model of Python `range(start, stop, step)` for non-negative arguments,
driven by explicit fuel so that the definition is structural (the call sites
always pass `step ≥ 1` and enough fuel). -/
def pyRangeAux : Nat → Nat → Nat → Nat → List Nat
  | 0, _, _, _ => []
  | fuel + 1, start, stop, step =>
    if start < stop then start :: pyRangeAux fuel (start + step) stop step else []

/-- Python `range(0, stop, step)`; `stop` steps of fuel always suffice when
`step ≥ 1`. -/
def pyRange (stop step : Nat) : List Nat :=
  pyRangeAux stop 0 stop step

/-- Shallow embedding of `chunk_text` (`src/create_index.py`) and the identical
`_chunk` (`src/app.py`, `src/app_chat.py`):

    text = re.sub(r"\s+", " ", text).strip()
    if not text: return []
    step = max(1, max_chars - overlap)
    return [text[i:i+max_chars] for i in range(0, len(text), step)]
-/
def chunk_text (text : String) (max_chars overlap : Nat) : List String :=
  let t := normWs text
  if t.data.isEmpty then []
  else
    let step := max 1 (max_chars - overlap)
    (pyRange t.data.length step).map (fun i => String.mk ((t.data.drop i).take max_chars))

/-- Decidable equality for `Except`, used to evaluate concrete runs of the
fallible embedded functions. -/
instance {ε α : Type} [DecidableEq ε] [DecidableEq α] : DecidableEq (Except ε α) :=
  fun a b =>
    match a, b with
    | .error x, .error y =>
      if h : x = y then isTrue (by rw [h]) else isFalse (fun hc => h (Except.error.inj hc))
    | .ok x, .ok y =>
      if h : x = y then isTrue (by rw [h]) else isFalse (fun hc => h (Except.ok.inj hc))
    | .error _, .ok _ => isFalse (fun hc => Except.noConfusion hc)
    | .ok _, .error _ => isFalse (fun hc => Except.noConfusion hc)

/-- A corpus document as produced by `_load_all_docs` / `load_docs`. -/
structure Doc where
  source : String
  text : String
deriving DecidableEq

/-- One entry of the persisted metadata list (`chunks.json`). -/
structure ChunkMeta where
  id : Nat
  text : String
  source : String
deriving DecidableEq

/-- The part of a FAISS `IndexFlatIP` visible to the code under scope: its
vector count (`ntotal`).  A freshly constructed index has `ntotal = 0`;
`index.add(vecs)` makes `ntotal` the number of embedded chunks. -/
structure FaissIndex where
  ntotal : Nat
deriving DecidableEq

/-- A retrieval result dict `{"text": ..., "source": ..., "score": ...}`. -/
structure Passage where
  text : String
  source : String
  score : Int
deriving DecidableEq

/-- Python `haystack.count(needle)`: number of non-overlapping occurrences,
scanning left to right.  Fuel-driven so the definition is structural; fuel
equal to the haystack length suffices for a non-empty needle, because every
step consumes at least one character. -/
def pyCountFuel (q : List Char) : Nat → List Char → Nat
  | 0, _ => 0
  | _ + 1, [] => 0
  | fuel + 1, c :: s =>
    if q.isPrefixOf (c :: s) then 1 + pyCountFuel q fuel (List.drop (q.length - 1) s)
    else pyCountFuel q fuel s

/-- Python `haystack.count(needle)` on strings. -/
def pyCount (needle haystack : String) : Nat :=
  pyCountFuel needle.data haystack.data.length haystack.data

/-- Python `needle in haystack` substring containment: the needle is a
prefix at some scan position. -/
def pyInAux (q : List Char) : List Char → Bool
  | [] => q.isEmpty
  | c :: s => q.isPrefixOf (c :: s) || pyInAux q s

/-- Python `needle in haystack` on strings. -/
def pyIn (needle haystack : String) : Bool :=
  pyInAux needle.data haystack.data

/-- Python `text[:2000]`. -/
def first2000 (s : String) : String :=
  String.mk (s.data.take 2000)

/-- Insert a passage into a list already sorted by descending score, after
every element of score ≥ its own (the position Python's stable sort gives a
later-arriving element). -/
def insertDescAux (e : Passage) : List Passage → List Passage
  | [] => [e]
  | x :: xs => if x.score < e.score then e :: x :: xs else x :: insertDescAux e xs

/-- Model of `scored.sort(key=lambda x: x["score"], reverse=True)`: a stable
sort by descending score. -/
def pySortByScoreDesc (l : List Passage) : List Passage :=
  l.foldl (fun acc e => insertDescAux e acc) []

/-- Shallow embedding of `_keyword_fallback` (`src/app.py` and
`src/app_chat.py`, identical): trim and lowercase the query, score every
cached raw document by non-overlapping occurrence count plus a presence
bonus, keep positive scores, sort descending, truncate to `k`; each entry's
text is the first 2000 characters of the document. -/
def keyword_fallback (raw_docs : List Doc) (query : String) (k : Nat) : List Passage :=
  let q := pyLower (pyStrip query)
  if q == "" then []
  else
    let scored := raw_docs.filterMap (fun d =>
      if d.text == "" then none
      else
        let tl := pyLower d.text
        let occ := pyCount q tl
        let score : Int := occ + (if pyIn q tl then 1 else 0)
        if 0 < score then some ⟨first2000 d.text, d.source, score⟩ else none)
    (pySortByScoreDesc scored).take k

/-- Truthiness of an optional Python string: `None` and `""` are falsy. -/
def optTruthy : Option String → Bool
  | none => false
  | some s => s != ""

/-- The value of an optional Python string under truthiness tests: `None` and
`""` both behave as unset. -/
def optTruthyVal : Option String → Option String
  | none => none
  | some s => if s == "" then none else some s

/-- Converting one FAISS search result `(I[0], D[0])` into passage dicts:
keep indices within the metadata list, look up the chunk, carry the score.
(`idx` is an `Int` because FAISS pads missing neighbours with `-1`.) -/
def hitsToPassages (chunks : List ChunkMeta) (hits : List (Int × Int)) : List Passage :=
  hits.filterMap (fun h =>
    if 0 ≤ h.1 ∧ h.1 < (chunks.length : Int) then
      (chunks.get? h.1.toNat).map (fun ch => ⟨ch.text, ch.source, h.2⟩)
    else none)

/-- Shallow embedding of `_retrieve` in `src/app_chat.py` (no boost).  The
`search` argument models `_embedder.encode` + `_faiss_index.search` combined;
`Except.error` is a raised exception.  The whole vector attempt sits inside
`try/except`, so an error degrades to the keyword fallback. -/
def retrieve_chat (rag_available : Bool) (faiss_index : Option FaissIndex)
    (chunks : List ChunkMeta) (raw_docs : List Doc)
    (search : String → Nat → Except Unit (List (Int × Int)))
    (query : String) (k : Nat) : Except Unit (List Passage) :=
  if rag_available && faiss_index.isSome && !chunks.isEmpty then
    match search query k with
    | .error _ => .ok (keyword_fallback raw_docs query k)
    | .ok hits =>
      let out := hitsToPassages chunks hits
      if !out.isEmpty then .ok out else .ok (keyword_fallback raw_docs query k)
  else .ok (keyword_fallback raw_docs query k)

/-- Shallow embedding of `_retrieve` in `src/app.py` (with boost).  There is
no `try/except` around the vector searches, so a search error propagates out
of the function (the `do` block's bind). -/
def retrieve_app (rag_available : Bool) (faiss_index : Option FaissIndex)
    (chunks : List ChunkMeta) (raw_docs : List Doc)
    (search : String → Nat → Except Unit (List (Int × Int)))
    (query : String) (k : Nat) (boost : Option String) : Except Unit (List Passage) :=
  let composite :=
    if optTruthy boost then query ++ "\n\n" ++ boost.getD "" else query
  let kw :=
    let fb := keyword_fallback raw_docs composite k
    if !fb.isEmpty then fb else keyword_fallback raw_docs query k
  if rag_available && faiss_index.isSome && !chunks.isEmpty then do
    let r1 ← search composite k
    let results := hitsToPassages chunks r1
    let results ←
      if results.isEmpty then do
        let r2 ← search query k
        pure (hitsToPassages chunks r2)
      else pure results
    let results ←
      if results.isEmpty && optTruthy boost then do
        let r3 ← search (boost.getD "") k
        pure (hitsToPassages chunks r3)
      else pure results
    if !results.isEmpty then pure results else pure kw
  else .ok kw

/-- First list in the sequence with at least one element, else `[]`. -/
def firstNonempty : List (List Passage) → List Passage
  | [] => []
  | l :: ls => if l.isEmpty then firstNonempty ls else l

/-- Modelled from the spec's words (claim C4): the retriever tries, in this
exact order, stopping at the first strategy returning at least one result:
(1) vector search of the composite `query + "\n\n" + boost` when the index is
loaded and non-empty, (2) vector search of the bare query, (3) vector search
of the bare boost when a boost was supplied, (4) keyword scoring of the
composite query, then of the bare query.  `vsearch` is the pure vector-search
capability for the call's `k`. -/
def retrieve_strategy_spec (rag_available : Bool) (faiss_index : Option FaissIndex)
    (chunks : List ChunkMeta) (raw_docs : List Doc)
    (vsearch : String → List (Int × Int))
    (query : String) (k : Nat) (boost : Option String) : List Passage :=
  let composite :=
    if optTruthy boost then query ++ "\n\n" ++ boost.getD "" else query
  firstNonempty
    ((if rag_available && faiss_index.isSome && !chunks.isEmpty then
        [hitsToPassages chunks (vsearch composite),
         hitsToPassages chunks (vsearch query)] ++
        (if optTruthy boost then [hitsToPassages chunks (vsearch (boost.getD ""))] else [])
      else []) ++
     [keyword_fallback raw_docs composite k, keyword_fallback raw_docs query k])

/-- Shallow embedding of `_build_index` (`src/app.py` and `src/app_chat.py`,
identical behaviour).  `load_result` models the two persisted artifacts:
`none` when either file is missing, `some none` when reading/parsing threw,
`some (some (idx, meta))` when both loaded.  The loaded pair is returned
as-is — the code performs no cardinality check between the index and the
metadata list.  Otherwise the corpus is chunked (`max_chars=2400`,
`overlap=400`); zero chunks yield a fresh empty index and empty metadata. -/
def build_index (rag_available : Bool)
    (load_result : Option (Option (FaissIndex × List ChunkMeta)))
    (docs : List Doc) : Option FaissIndex × List ChunkMeta :=
  if !rag_available then (none, [])
  else
    match load_result with
    | some (some pair) => (some pair.1, pair.2)
    | _ =>
      let chunks := docs.flatMap
        (fun d => (chunk_text d.text 2400 400).map (fun piece => (piece, d.source)))
      if chunks.isEmpty then (some ⟨0⟩, [])
      else
        (some ⟨chunks.length⟩,
         chunks.enum.map (fun ic => ⟨ic.1, ic.2.1, ic.2.2⟩))

/-- Shallow embedding of the chunking/indexing part of `main` in
`src/create_index.py`: zero extracted chunks raise `SystemExit` (modelled as
`Except.error` with the printed message); otherwise the index and the ordered
metadata are produced. -/
def create_index_main (docs : List Doc) : Except String (FaissIndex × List ChunkMeta) :=
  let chunks := docs.flatMap
    (fun d => (chunk_text d.text 2400 400).map (fun piece => (piece, d.source)))
  if chunks.isEmpty then
    .error "[create_index] No text extracted from docs. Ensure server/resources has readable .pdf/.txt/.md files."
  else
    .ok (⟨chunks.length⟩, chunks.enum.map (fun ic => ⟨ic.1, ic.2.1, ic.2.2⟩))

/-- One step specification from the paths-configuration JSON.  A `dict.get`
with no default is an `Option` field; `inherits_from_chosen_methodology` is
read with Python truthiness, hence `Bool`.  The opaque `options`/`fields`
JSON arrays are modelled as lists of strings (the code never inspects them,
only passes them through). -/
structure StepSpec where
  title : Option String
  directions : Option String
  field_type : Option String
  field_key : Option String
  options : Option (List String)
  fields : Option (List String)
  llm_guidance : Option String
  inherits_from_chosen_methodology : Bool
  llm_guidance_addendum : Option String
deriving DecidableEq

/-- The empty step spec, i.e. the `{}` default of the `.get` chains. -/
def emptyStepSpec : StepSpec :=
  ⟨none, none, none, none, none, none, none, false, none⟩

/-- One research path: its per-step specs (keyed by step number; `none` is a
missing/empty entry). -/
structure PathData where
  steps : Nat → Option StepSpec

/-- The loaded paths-configuration tree (the part the claims exercise). -/
structure PathsConfig where
  paths : String → Option PathData

/-- `paths_cfg.get("paths", {}).get(name, {}).get("steps", {}).get(str(step), {})`. -/
def getStepSpec (cfg : PathsConfig) (name : String) (step : Nat) : StepSpec :=
  match cfg.paths name with
  | some pd => (pd.steps step).getD emptyStepSpec
  | none => emptyStepSpec

/-- Same lookup but keeping emptiness visible, for Python's `if override_cfg:`
truthiness test on the resulting dict. -/
def getStepSpecOpt (cfg : PathsConfig) (name : String) (step : Nat) : Option StepSpec :=
  match cfg.paths name with
  | some pd => pd.steps step
  | none => none

/-- The slice of a stored session the resolution engine and
`set_methodology` read and write.  Step notes are a dict from step-number
strings to a dict of field values (field values opaque strings). -/
structure SessionData where
  id : String
  resolved_path : Option String
  chosen_methodology : Option String
  worldview_band : Option String
  step_notes : List (String × List (String × String))
deriving DecidableEq

/-- The `StepConfigResp` pydantic model of `src/app_chat.py`. -/
structure StepConfigResp where
  step : Nat
  path : Option String
  title : String
  directions : String
  field_type : Option String
  field_key : Option String
  options : Option (List String)
  fields : Option (List String)
  llm_guidance : Option String
  quantitative_options : Option (List String)
  qualitative_options : Option (List String)
  recommended_methodology : Option String
deriving DecidableEq

/-- `StepConfigResp(step=step)` with every other field at its default. -/
def defaultResp (step : Nat) : StepConfigResp :=
  ⟨step, none, "", "", none, none, none, none, none, none, none, none⟩

/-- Shallow embedding of `get_step_config` (`src/app_chat.py`), the
path-resolved configuration for a step of an existing session. -/
def get_step_config (cfg : PathsConfig) (sess : SessionData) (step : Nat) : StepConfigResp :=
  if step ≤ 3 then defaultResp step
  else
    match optTruthyVal sess.resolved_path with
    | none =>
      { defaultResp step with
        title := "Step " ++ toString step,
        directions := "Please complete Step 1 first and select your worldview." }
    | some resolved =>
      let step_cfg := getStepSpec cfg resolved step
      if 5 ≤ step && resolved == "mixed" && step_cfg.inherits_from_chosen_methodology then
        match optTruthyVal sess.chosen_methodology with
        | none =>
          { defaultResp step with
            path := some "mixed",
            title := "Step " ++ toString step,
            directions := "Please complete Step 4 first and choose your primary methodology." }
        | some chosen =>
          let inherited := getStepSpec cfg chosen step
          let guidance0 := inherited.llm_guidance.getD ""
          let addendum := step_cfg.llm_guidance_addendum.getD ""
          let guidance :=
            if addendum != "" then
              (if guidance0 != "" then guidance0 ++ "\n" ++ addendum else addendum)
            else guidance0
          { step := step, path := some resolved,
            title := inherited.title.getD ("Step " ++ toString step),
            directions := inherited.directions.getD "",
            field_type := inherited.field_type,
            field_key := inherited.field_key,
            options := inherited.options,
            fields := inherited.fields,
            llm_guidance := if guidance == "" then none else some guidance,
            quantitative_options := none, qualitative_options := none,
            recommended_methodology := none }
      else
        let rest :=
          if step == 4 then
            let recommended :=
              if resolved == "quantitative" then some "quantitative"
              else if resolved == "qualitative" then some "qualitative"
              else none
            { step := step, path := some resolved,
              title := step_cfg.title.getD "Step 4: How will I study it?",
              directions := step_cfg.directions.getD "",
              field_type := some "methodology_decision",
              field_key := some (step_cfg.field_key.getD "design"),
              options := step_cfg.options,
              fields := step_cfg.fields,
              llm_guidance := step_cfg.llm_guidance,
              quantitative_options := (getStepSpec cfg "quantitative" 4).options,
              qualitative_options := (getStepSpec cfg "qualitative" 4).options,
              recommended_methodology := recommended }
          else
            { step := step, path := some resolved,
              title := step_cfg.title.getD ("Step " ++ toString step),
              directions := step_cfg.directions.getD "",
              field_type := step_cfg.field_type,
              field_key := step_cfg.field_key,
              options := step_cfg.options,
              fields := step_cfg.fields,
              llm_guidance := step_cfg.llm_guidance,
              quantitative_options := none, qualitative_options := none,
              recommended_methodology := none }
        if 5 ≤ step && resolved != "mixed" then
          match optTruthyVal sess.chosen_methodology with
          | some chosen =>
            if chosen != resolved then
              match getStepSpecOpt cfg chosen step with
              | some ov =>
                { step := step, path := some resolved,
                  title := ov.title.getD ("Step " ++ toString step),
                  directions := ov.directions.getD "",
                  field_type := ov.field_type,
                  field_key := ov.field_key,
                  options := ov.options,
                  fields := ov.fields,
                  llm_guidance := ov.llm_guidance,
                  quantitative_options := none, qualitative_options := none,
                  recommended_methodology := none }
              | none => rest
            else rest
          | none => rest
        else rest

/-- Shallow embedding of `_get_step_llm_guidance` (`src/app_chat.py`): the
guidance-only resolution following the same precedence rules. -/
def get_step_llm_guidance (cfg : PathsConfig) (sess : SessionData)
    (active_step : Option Nat) : Option String :=
  match active_step with
  | none => none
  | some st =>
    if st < 4 then none
    else
      match optTruthyVal sess.resolved_path with
      | none => none
      | some resolved =>
        let step_cfg := getStepSpec cfg resolved st
        if resolved == "mixed" && 5 ≤ st && step_cfg.inherits_from_chosen_methodology then
          match optTruthyVal sess.chosen_methodology with
          | none => some "The student has not yet chosen their primary methodology in Step 4."
          | some chosen =>
            let inherited := getStepSpec cfg chosen st
            let guidance0 := inherited.llm_guidance.getD ""
            let addendum := step_cfg.llm_guidance_addendum.getD ""
            let guidance :=
              if addendum != "" then
                (if guidance0 != "" then guidance0 ++ "\n" ++ addendum else addendum)
              else guidance0
            if guidance == "" then none else some guidance
        else
          if resolved != "mixed" then
            match optTruthyVal sess.chosen_methodology with
            | some chosen =>
              if chosen != resolved then
                match getStepSpecOpt cfg chosen st with
                | some ov => ov.llm_guidance
                | none => step_cfg.llm_guidance
              else step_cfg.llm_guidance
            | none => step_cfg.llm_guidance
          else step_cfg.llm_guidance

/-- Python `d.get(key)` on an association-list dict. -/
def dGet {α : Type} (d : List (String × α)) (key : String) : Option α :=
  match d.find? (fun kv => kv.1 == key) with
  | some kv => some kv.2
  | none => none

/-- Python `d[key] = v`: replace in place if the key is present (dict keys are
unique), else append at the end. -/
def dSet {α : Type} : List (String × α) → String → α → List (String × α)
  | [], key, v => [(key, v)]
  | kv :: ds, key, v =>
    if kv.1 == key then (key, v) :: ds else kv :: dSet ds key v

/-- Python `d.pop(key, None)`: remove the key if present. -/
def dPop {α : Type} (d : List (String × α)) (key : String) : List (String × α) :=
  d.filter (fun kv => kv.1 != key)

/-- Shallow embedding of `set_methodology` (`src/app_chat.py`): normalise the
requested methodology, reject anything but the two literals with HTTP 400,
clear step notes 5–9 on an actual change, record the choice on the session
and inside the step-4 note. -/
def set_methodology (sess : SessionData) (methodology : String) :
    Except Nat SessionData :=
  let meth := pyLower (pyStrip methodology)
  if meth != "quantitative" && meth != "qualitative" then .error 400
  else
    let notes1 :=
      match optTruthyVal sess.chosen_methodology with
      | some prev =>
        if prev != meth then
          (List.range' 5 5).foldl (fun acc s => dPop acc (toString s)) sess.step_notes
        else sess.step_notes
      | none => sess.step_notes
    let s4 := (dGet notes1 "4").getD []
    let notes2 := dSet notes1 "4" (dSet s4 "chosen_methodology" meth)
    .ok { sess with chosen_methodology := some meth, step_notes := notes2 }

/-- Modelled from the spec (claim C1): the holding configuration returned for
a mixed-path step ≥ 5 before a methodology has been chosen — no field spec,
directions pointing the student at step 4. -/
def specHoldingConfig (step : Nat) : StepConfigResp :=
  { defaultResp step with
    path := some "mixed",
    title := "Step " ++ toString step,
    directions := "Please complete Step 4 first and choose your primary methodology." }

/-- Modelled from the spec (claim C1): `"{inherited}\n{addendum}"`, or just the
addendum when the inherited guidance is empty. -/
def specMergedGuidance (inherited addendum : String) : String :=
  if inherited = "" then addendum else inherited ++ "\n" ++ addendum

/-- Modelled from the spec (claim C1): the chosen methodology's spec for the
step, with the mixed path's `llm_guidance_addendum` appended to the inherited
guidance. -/
def specMixedInheritedConfig (cfg : PathsConfig) (chosen : String) (step : Nat) :
    StepConfigResp :=
  let inh := getStepSpec cfg chosen step
  let add := (getStepSpec cfg "mixed" step).llm_guidance_addendum.getD ""
  { step := step, path := some "mixed",
    title := inh.title.getD ("Step " ++ toString step),
    directions := inh.directions.getD "",
    field_type := inh.field_type, field_key := inh.field_key,
    options := inh.options, fields := inh.fields,
    llm_guidance := some (specMergedGuidance (inh.llm_guidance.getD "") add),
    quantitative_options := none, qualitative_options := none,
    recommended_methodology := none }

/-- Modelled from the spec (claim C7): the override methodology's own spec for
the step, used in full, no addendum merge. -/
def specOverrideConfig (resolved : String) (ov : StepSpec) (step : Nat) :
    StepConfigResp :=
  { step := step, path := some resolved,
    title := ov.title.getD ("Step " ++ toString step),
    directions := ov.directions.getD "",
    field_type := ov.field_type, field_key := ov.field_key,
    options := ov.options, fields := ov.fields,
    llm_guidance := ov.llm_guidance,
    quantitative_options := none, qualitative_options := none,
    recommended_methodology := none }

/-- A small concrete paths configuration used to evaluate the path-resolution
theorems on explicit inputs: a mixed step-6 spec flagged as inheriting with
addendum "ADD", a qualitative path with step-6 and step-7 specs, and a
quantitative path with a step-7 spec. -/
def wCfg : PathsConfig :=
  ⟨fun name =>
    if name == "mixed" then
      some ⟨fun st =>
        if st == 6 then
          some ⟨some "MT", some "MD", some "ft", some "fk", none, none,
            some "MG", true, some "ADD"⟩
        else none⟩
    else if name == "qualitative" then
      some ⟨fun st =>
        if st == 6 then
          some ⟨some "QT", some "QD", some "qft", some "qfk", none, none,
            some "QG", false, none⟩
        else if st == 7 then
          some ⟨some "QT7", some "QD7", none, none, none, none,
            some "QG7", false, none⟩
        else none⟩
    else if name == "quantitative" then
      some ⟨fun st =>
        if st == 7 then
          some ⟨some "NT7", some "ND7", none, none, none, none,
            some "NG7", false, none⟩
        else none⟩
    else none⟩

/-- A mixed-path session with no methodology chosen yet. -/
def wSessMixedNone : SessionData :=
  ⟨"s1", some "mixed", none, none, []⟩

/-- A mixed-path session that chose the qualitative methodology. -/
def wSessMixedQual : SessionData :=
  ⟨"s2", some "mixed", some "qualitative", none, []⟩

/-- A quantitative-path session overriding to qualitative. -/
def wSessQuantQual : SessionData :=
  ⟨"s3", some "quantitative", some "qualitative", none, []⟩

/-- A session that previously chose quantitative, with step notes recorded for
steps 1, 4, 5 and 7. -/
def wSessPrevQuant : SessionData :=
  ⟨"s4", some "quantitative", some "quantitative", some "positivist",
   [("1", [("worldview_id", "positivist")]), ("4", [("design", "x")]),
    ("5", [("rq", "y")]), ("7", [("an", "z")])]⟩

section Lemmas

/-- Ceiling-division step: for positive `d`, one window is consumed and the
remaining need is `d - step`. -/
theorem ceil_div_step (d step : Nat) (hstep : 0 < step) (hd : 0 < d) :
    (d + step - 1) / step = ((d - step) + step - 1) / step + 1 := by
  rcases le_or_lt d step with h | h
  · have h0 : d - step = 0 := by omega
    rw [h0, Nat.zero_add]
    have h1 : (step - 1) / step = 0 := Nat.div_eq_of_lt (by omega)
    have h2 : (d + step - 1) / step = 1 := Nat.div_eq_of_lt_le (by omega) (by omega)
    omega
  · have h1 : d + step - 1 = (d - 1) + step := by omega
    have h2 : (d - step) + step - 1 = (d - 1 - step) + step := by omega
    rw [h1, h2, Nat.add_div_right _ hstep, Nat.add_div_right _ hstep]
    conv_lhs => rw [show d - 1 = (d - 1 - step) + step from by omega]
    rw [Nat.add_div_right _ hstep]

/-- Length of the fuelled Python range: with positive step and enough fuel it
is the ceiling of `(stop - start) / step`. -/
theorem pyRangeAux_length (step : Nat) (hstep : 0 < step) :
    ∀ (fuel start stop : Nat), stop ≤ start + fuel →
      (pyRangeAux fuel start stop step).length = ((stop - start) + step - 1) / step := by
  intro fuel
  induction fuel with
  | zero =>
    intro start stop hle
    have h0 : stop - start = 0 := by omega
    simp [pyRangeAux, h0, Nat.div_eq_of_lt (by omega : step - 1 < step)]
  | succ n ih =>
    intro start stop hle
    by_cases h : start < stop
    · rw [pyRangeAux, if_pos h, List.length_cons,
        ih (start + step) stop (by omega)]
      have hd : 0 < stop - start := by omega
      have hsub : stop - (start + step) = (stop - start) - step := by omega
      rw [hsub, ceil_div_step (stop - start) step hstep hd]
    · rw [pyRangeAux, if_neg h]
      have h0 : stop - start = 0 := by omega
      simp [h0, Nat.div_eq_of_lt (by omega : step - 1 < step)]

/-- Length of `range(0, stop, step)` for positive step. -/
theorem pyRange_length (stop step : Nat) (hstep : 0 < step) :
    (pyRange stop step).length = (stop + step - 1) / step := by
  have := pyRangeAux_length step hstep stop 0 stop (by omega)
  simpa [pyRange] using this

/-- A positive occurrence count implies the needle occurs as a prefix at some
scan position. -/
theorem pyCountFuel_pos_in (q : List Char) :
    ∀ (fuel : Nat) (s : List Char), 0 < pyCountFuel q fuel s → pyInAux q s = true := by
  intro fuel
  induction fuel with
  | zero => intro s h; simp [pyCountFuel] at h
  | succ n ih =>
    intro s h
    match s with
    | [] => simp [pyCountFuel] at h
    | c :: rest =>
      by_cases hp : q.isPrefixOf (c :: rest)
      · simp [pyInAux, hp]
      · rw [pyCountFuel, if_neg hp] at h
        simp [pyInAux, ih rest h]

/-- Membership in `insertDescAux`. -/
theorem mem_insertDescAux (e a : Passage) :
    ∀ (l : List Passage), a ∈ insertDescAux e l ↔ a = e ∨ a ∈ l := by
  intro l
  induction l with
  | nil => simp [insertDescAux]
  | cons x xs ih =>
    by_cases h : x.score < e.score
    · simp [insertDescAux, h]
    · rw [insertDescAux, if_neg h]
      simp only [List.mem_cons, ih]
      tauto

/-- Insertion preserves the descending-score pairwise property. -/
theorem pairwise_insertDescAux (e : Passage) :
    ∀ (l : List Passage), l.Pairwise (fun a b => b.score ≤ a.score) →
      (insertDescAux e l).Pairwise (fun a b => b.score ≤ a.score) := by
  intro l
  induction l with
  | nil => intro _; simp [insertDescAux]
  | cons x xs ih =>
    intro h
    rw [List.pairwise_cons] at h
    by_cases hx : x.score < e.score
    · rw [insertDescAux, if_pos hx, List.pairwise_cons]
      constructor
      · intro b hb
        rcases List.mem_cons.mp hb with rfl | hb
        · exact le_of_lt hx
        · exact le_trans (h.1 b hb) (le_of_lt hx)
      · rw [List.pairwise_cons]; exact h
    · rw [insertDescAux, if_neg hx, List.pairwise_cons]
      constructor
      · intro b hb
        rcases (mem_insertDescAux e b xs).mp hb with rfl | hb
        · exact le_of_not_lt hx
        · exact h.1 b hb
      · exact ih h.2

/-- The stable descending sort produces a descending-score list. -/
theorem pairwise_pySortByScoreDesc (l : List Passage) :
    (pySortByScoreDesc l).Pairwise (fun a b => b.score ≤ a.score) := by
  have key : ∀ (xs acc : List Passage),
      acc.Pairwise (fun a b => b.score ≤ a.score) →
      (xs.foldl (fun acc e => insertDescAux e acc) acc).Pairwise
        (fun a b => b.score ≤ a.score) := by
    intro xs
    induction xs with
    | nil => intro acc h; simpa using h
    | cons x xs ih =>
      intro acc h
      exact ih (insertDescAux x acc) (pairwise_insertDescAux x acc h)
  exact key l [] (by simp)

/-- The stable descending sort is a permutation as far as membership goes. -/
theorem mem_pySortByScoreDesc (a : Passage) (l : List Passage) :
    a ∈ pySortByScoreDesc l ↔ a ∈ l := by
  have key : ∀ (xs acc : List Passage),
      (a ∈ xs.foldl (fun acc e => insertDescAux e acc) acc) ↔ a ∈ acc ∨ a ∈ xs := by
    intro xs
    induction xs with
    | nil => intro acc; simp
    | cons x xs ih =>
      intro acc
      rw [List.foldl_cons, ih (insertDescAux x acc), mem_insertDescAux]
      simp only [List.mem_cons]
      tauto
  have := key l []
  simp only [List.not_mem_nil, false_or] at this
  exact this

/-- A string with a non-empty right factor is non-empty. -/
theorem append_right_ne_empty (a b : String) (h : b ≠ "") : a ++ b ≠ "" := by
  intro hc
  apply h
  obtain ⟨la⟩ := a
  obtain ⟨lb⟩ := b
  have : la ++ lb = [] := by
    have := congrArg String.data hc
    simpa using this
  have hb : lb = [] := (List.append_eq_nil.mp this).2
  simp [hb]

/-- A flat map over per-document chunk lists is empty when every document
chunks to nothing. -/
theorem flatMap_chunks_nil (docs : List Doc)
    (h : ∀ d ∈ docs, chunk_text d.text 2400 400 = []) :
    docs.flatMap
      (fun d => (chunk_text d.text 2400 400).map (fun piece => (piece, d.source))) = [] := by
  induction docs with
  | nil => simp
  | cons d ds ih =>
    rw [List.flatMap_cons, h d (by simp), ih (fun x hx => h x (by simp [hx]))]
    simp

/-- Reading a cons cell of an association-list dict. -/
theorem dGet_cons {α : Type} (kv : String × α) (ds : List (String × α)) (key : String) :
    dGet (kv :: ds) key = if kv.1 == key then some kv.2 else dGet ds key := by
  by_cases h : (kv.1 == key) = true
  · simp [dGet, List.find?_cons, h]
  · have hf : (kv.1 == key) = false := by simpa using h
    simp [dGet, List.find?_cons, hf]

/-- Setting a key makes it readable. -/
theorem dGet_dSet_self {α : Type} (d : List (String × α)) (key : String) (v : α) :
    dGet (dSet d key v) key = some v := by
  induction d with
  | nil => simp [dSet, dGet_cons]
  | cons kv ds ih =>
    simp only [dSet]
    by_cases h : (kv.1 == key) = true
    · rw [if_pos h, dGet_cons]
      simp
    · rw [if_neg h, dGet_cons, if_neg h]
      exact ih

/-- Setting a key leaves every other key unchanged. -/
theorem dGet_dSet_ne {α : Type} (d : List (String × α)) (key k' : String) (v : α)
    (h : k' ≠ key) :
    dGet (dSet d key v) k' = dGet d k' := by
  have hk : (key == k') = false := by
    simp only [beq_eq_false_iff_ne, ne_eq]
    exact fun hc => h hc.symm
  induction d with
  | nil => simp [dSet, dGet_cons, dGet, hk]
  | cons kv ds ih =>
    simp only [dSet]
    by_cases hkv : (kv.1 == key) = true
    · have hkey : kv.1 = key := by simpa using hkv
      have hkv' : (kv.1 == k') = false := by
        rw [hkey]
        exact hk
      rw [if_pos hkv, dGet_cons, dGet_cons]
      simp [hk, hkv']
    · rw [if_neg hkv, dGet_cons, dGet_cons]
      by_cases hk2 : (kv.1 == k') = true
      · simp [hk2]
      · simp [hk2, ih]

/-- Popping a key removes it. -/
theorem dGet_dPop_self {α : Type} (d : List (String × α)) (key : String) :
    dGet (dPop d key) key = none := by
  induction d with
  | nil => simp [dGet, dPop]
  | cons kv ds ih =>
    simp only [dPop, List.filter_cons]
    by_cases h : (kv.1 == key) = true
    · have hb : (kv.1 != key) = false := by simp [bne, h]
      rw [hb, if_neg (by simp)]
      simpa [dPop] using ih
    · have hbeq : (kv.1 == key) = false := by simpa using h
      have hb : (kv.1 != key) = true := by simp [bne, hbeq]
      rw [hb, if_pos rfl, dGet_cons, if_neg (by simp [hbeq])]
      simpa [dPop] using ih

/-- Popping a key leaves every other key unchanged. -/
theorem dGet_dPop_ne {α : Type} (d : List (String × α)) (key k' : String)
    (h : k' ≠ key) :
    dGet (dPop d key) k' = dGet d k' := by
  induction d with
  | nil => simp [dGet, dPop]
  | cons kv ds ih =>
    simp only [dPop, List.filter_cons]
    by_cases hkv : (kv.1 == key) = true
    · have hkey : kv.1 = key := by simpa using hkv
      have hkv' : (kv.1 == k') = false := by
        simp only [beq_eq_false_iff_ne, ne_eq, hkey]
        exact fun hc => h hc.symm
      have hb : (kv.1 != key) = false := by simp [bne, hkv]
      rw [hb, if_neg (by simp), dGet_cons, if_neg (by simp [hkv'])]
      simpa [dPop] using ih
    · have hbeq : (kv.1 == key) = false := by simpa using hkv
      have hb : (kv.1 != key) = true := by simp [bne, hbeq]
      rw [hb, if_pos rfl, dGet_cons, dGet_cons]
      by_cases hk2 : (kv.1 == k') = true
      · simp [hk2]
      · simp only [hk2, Bool.false_eq_true, if_false]
        simpa [dPop] using ih

end Lemmas

section Claims

/-- C2 (counterexample): the claimed chunk-count formula fails.  A text of 81
identical characters has whitespace-normalized length 81, so with
`1 ≤ L ≤ 100` the claim predicts one chunk, but `chunk(text, 100, 20)`
returns two: `range(0, 81, 80)` has the extra start `80`. -/
theorem c2_counterexample :
    (normWs (String.mk (List.replicate 81 'a'))).length = 81 ∧
    1 ≤ 81 ∧ 81 ≤ 100 ∧
    (chunk_text (String.mk (List.replicate 81 'a')) 100 20).length = 2 ∧
    (2 : Nat) ≠ 1 := by
  refine ⟨by decide, by decide, by decide, by decide, by decide⟩

/-- C2 (amended): for every text, `chunk(text, max_chars=100, overlap=20)`
returns exactly `⌈L / 80⌉ = (L + 79) / 80` chunks, where `L` is the
whitespace-normalized length — in particular `0` chunks for empty input.
(The claimed `⌈(L-100)/80⌉ + 1` for `L > 100`, else `1`, overcounts the
windows needed to cover the text but undercounts what the code produces
whenever `L mod 80` lies in `1..20`.) -/
theorem c2_chunk_count (text : String) :
    (chunk_text text 100 20).length = ((normWs text).length + 79) / 80 := by
  have hlen : (normWs text).length = (normWs text).data.length := rfl
  by_cases h : (normWs text).data.isEmpty
  · have hnil : (normWs text).data = [] := by
      cases hd : (normWs text).data with
      | nil => rfl
      | cons c cs => rw [hd] at h; simp [List.isEmpty] at h
    simp only [chunk_text, h, if_true]
    rw [hlen, hnil]
    decide
  · simp only [chunk_text, h, Bool.false_eq_true, if_false]
    rw [List.length_map]
    have hstep : max 1 (100 - 20) = 80 := by decide
    rw [hstep, pyRange_length _ 80 (by omega), hlen]
    have harith : (normWs text).data.length + 80 - 1 = (normWs text).data.length + 79 := by
      omega
    rw [harith]

/-- C3 (counterexample): the loader performs no cardinality verification.  A
loaded pair whose index reports 2 vectors next to an empty metadata list is
accepted as-is by `_build_index`, instead of being rebuilt from the corpus
(the rebuild of this one-document corpus would give 1 vector and 1 metadata
entry). -/
theorem c3_counterexample :
    build_index true (some (some (⟨2⟩, ([] : List ChunkMeta)))) [⟨"doc.txt", "hello"⟩] =
      (some ⟨2⟩, ([] : List ChunkMeta)) ∧
    (FaissIndex.mk 2).ntotal ≠ ([] : List ChunkMeta).length ∧
    build_index true none [⟨"doc.txt", "hello"⟩] ≠
      (some ⟨2⟩, ([] : List ChunkMeta)) := by
  refine ⟨by decide, by decide, by decide⟩

/-- C3 (amended): on load `_build_index` accepts any successfully parsed
index/metadata pair unchanged — even one violating
`len(metadata) == index.ntotal`; only a missing or unreadable artifact causes
a rebuild from the corpus. -/
theorem c3_load_no_validation (idx : FaissIndex) (meta : List ChunkMeta)
    (docs : List Doc) (h : idx.ntotal ≠ meta.length) :
    build_index true (some (some (idx, meta))) docs = (some idx, meta) := rfl

/-- Witness for C3: the amended theorem applied to the mismatched pair. -/
theorem c3_witness :
    (FaissIndex.mk 2).ntotal ≠ ([] : List ChunkMeta).length ∧
    build_index true (some (some (⟨2⟩, ([] : List ChunkMeta)))) ([] : List Doc) =
      (some ⟨2⟩, ([] : List ChunkMeta)) :=
  ⟨by decide, c3_load_no_validation ⟨2⟩ [] [] (by decide)⟩

/-- C9 (counterexample): the `create_index.py` build path does NOT degrade to
an empty index on an empty chunk set — it terminates with `SystemExit`.  A
corpus whose single document is all whitespace yields zero chunks, and `main`
raises. -/
theorem c9_counterexample :
    chunk_text "   " 2400 400 = [] ∧
    create_index_main [⟨"empty.txt", "   "⟩] =
      .error "[create_index] No text extracted from docs. Ensure server/resources has readable .pdf/.txt/.md files." := by
  refine ⟨by decide, by decide⟩

/-- C9 (amended): in `_build_index` (`src/app.py`, `src/app_chat.py`) a corpus
yielding zero chunks produces an empty index (`ntotal = 0`) and an empty
metadata list, with no error; the standalone `create_index.py` script instead
terminates with `SystemExit` in that situation. -/
theorem c9_build_empty (docs : List Doc)
    (h : ∀ d ∈ docs, chunk_text d.text 2400 400 = []) :
    build_index true none docs = (some ⟨0⟩, ([] : List ChunkMeta)) := by
  have hnil := flatMap_chunks_nil docs h
  simp [build_index, hnil]

/-- Witness for C9: the amended theorem applied to a whitespace-only corpus. -/
theorem c9_witness :
    (∀ d ∈ [(⟨"e.txt", "  "⟩ : Doc)], chunk_text d.text 2400 400 = []) ∧
    build_index true none [(⟨"e.txt", "  "⟩ : Doc)] =
      (some ⟨0⟩, ([] : List ChunkMeta)) :=
  ⟨by decide, c9_build_empty _ (by decide)⟩

/-- C5 (counterexample): `_retrieve` in `src/app.py` is not exception-safe.
With a loaded non-empty index, a failing embedding/search call propagates out
of `_retrieve` instead of degrading to the keyword fallback. -/
theorem c5_counterexample :
    retrieve_app true (some ⟨1⟩) [⟨0, "t", "s"⟩] []
      (fun _ _ => .error ()) "q" 5 none = .error () := by
  decide

/-- C5 (amended): `_retrieve` in `src/app_chat.py` never raises — any vector
failure (search error, empty result, index unavailable) degrades to the
keyword fallback and the function always returns a plain list; but
`_retrieve` in `src/app.py` has no try/except around its vector searches and
propagates their exceptions. -/
theorem c5_chat_total (rag : Bool) (fi : Option FaissIndex) (chunks : List ChunkMeta)
    (raw : List Doc) (search : String → Nat → Except Unit (List (Int × Int)))
    (q : String) (k : Nat) :
    ∃ l, retrieve_chat rag fi chunks raw search q k = .ok l := by
  unfold retrieve_chat
  split
  · split
    · exact ⟨_, rfl⟩
    · rename_i hits heq
      by_cases ho : (hitsToPassages chunks hits).isEmpty
      · exact ⟨keyword_fallback raw q k, by simp [ho]⟩
      · exact ⟨hitsToPassages chunks hits, by simp [ho]⟩
  · exact ⟨_, rfl⟩

/-- C4 (confirmed): with a non-throwing search capability, `_retrieve` in
`src/app.py` returns exactly the first non-empty result among, in order:
vector search of `query + "\n\n" + boost` when the index is loaded and
non-empty, vector search of the bare query, vector search of the bare boost
when a boost was supplied, keyword scoring of the composite query, then
keyword scoring of the bare query.  (A supplied boost is a non-empty string:
Python tests `if boost` by truthiness.) -/
theorem c4_retrieve_strategy_order (rag : Bool) (fi : Option FaissIndex)
    (chunks : List ChunkMeta) (raw : List Doc) (f : String → Nat → List (Int × Int))
    (q : String) (k : Nat) (boost : Option String) (hb : boost ≠ some "") :
    retrieve_app rag fi chunks raw (fun s k' => .ok (f s k')) q k boost =
      .ok (retrieve_strategy_spec rag fi chunks raw (fun s => f s k) q k boost) := by
  unfold retrieve_app retrieve_strategy_spec
  simp only [bind, Except.bind, pure, Except.pure, firstNonempty, List.cons_append,
    List.nil_append, List.isEmpty_eq_true, Bool.not_eq_true', List.isEmpty_eq_false,
    Bool.and_eq_true, decide_eq_true_eq]
  split_ifs <;> simp_all [firstNonempty] <;> split_ifs <;> simp_all

/-- Witness for C4: a concrete run where the composite search misses and the
bare-query search hits. -/
theorem c4_witness :
    (some "b" : Option String) ≠ some "" ∧
    retrieve_app true (some ⟨1⟩) [⟨0, "t", "s"⟩] []
      (fun s k' => .ok (if s == "a" then [((0 : Int), (1 : Int))] else []))
      "a" 5 (some "b") =
    .ok (retrieve_strategy_spec true (some ⟨1⟩) [⟨0, "t", "s"⟩] []
      (fun s => if s == "a" then [((0 : Int), (1 : Int))] else []) "a" 5 (some "b")) :=
  ⟨by decide,
   c4_retrieve_strategy_order true (some ⟨1⟩) [⟨0, "t", "s"⟩] []
     (fun s _ => if s == "a" then [((0 : Int), (1 : Int))] else [])
     "a" 5 (some "b") (by decide)⟩

/-- C6 (confirmed): for a non-empty trimmed query, every entry the keyword
fallback returns comes from a cached document that contains the trimmed,
lowercased query; its score is the non-overlapping occurrence count plus 1;
its text is the first 2000 characters of the document; documents without an
occurrence are excluded; the result is sorted by descending score and
truncated to `k`. -/
theorem c6_keyword_scoring (docs : List Doc) (query : String) (k : Nat)
    (hq : pyLower (pyStrip query) ≠ "") :
    (keyword_fallback docs query k).length ≤ k ∧
    (keyword_fallback docs query k).Pairwise (fun a b => b.score ≤ a.score) ∧
    ∀ e ∈ keyword_fallback docs query k, ∃ d ∈ docs,
      e.text = first2000 d.text ∧ e.source = d.source ∧
      pyIn (pyLower (pyStrip query)) (pyLower d.text) = true ∧
      e.score = (pyCount (pyLower (pyStrip query)) (pyLower d.text) : Int) + 1 := by
  have hqb : (pyLower (pyStrip query) == "") = false := by
    simp only [beq_eq_false_iff_ne, ne_eq]
    exact hq
  unfold keyword_fallback
  simp only [hqb, Bool.false_eq_true, if_false]
  refine ⟨?_, ?_, ?_⟩
  · exact List.length_take_le k _
  · exact (pairwise_pySortByScoreDesc _).sublist (List.take_sublist k _)
  · intro e he
    have he2 := (mem_pySortByScoreDesc e _).mp (List.mem_of_mem_take he)
    obtain ⟨d, hd, hfd⟩ := List.mem_filterMap.mp he2
    refine ⟨d, hd, ?_⟩
    by_cases htext : (d.text == "") = true
    · rw [if_pos htext] at hfd
      exact absurd hfd (by simp)
    · rw [if_neg htext] at hfd
      by_cases hin : pyIn (pyLower (pyStrip query)) (pyLower d.text) = true
      · rw [hin, if_pos rfl] at hfd
        have hpos : (0 : Int) <
            (pyCount (pyLower (pyStrip query)) (pyLower d.text) : Int) + 1 := by
          positivity
        rw [if_pos hpos] at hfd
        obtain rfl := Option.some.inj hfd
        exact ⟨rfl, rfl, hin, rfl⟩
      · rw [Bool.not_eq_true] at hin
        rw [hin] at hfd
        simp only [Bool.false_eq_true, if_false, add_zero] at hfd
        by_cases hsc : (0 : Int) < (pyCount (pyLower (pyStrip query)) (pyLower d.text) : Int)
        · exfalso
          have hcnt : 0 < pyCount (pyLower (pyStrip query)) (pyLower d.text) := by
            exact_mod_cast hsc
          have := pyCountFuel_pos_in (pyLower (pyStrip query)).data
            (pyLower d.text).data.length (pyLower d.text).data hcnt
          rw [show pyInAux (pyLower (pyStrip query)).data (pyLower d.text).data =
              pyIn (pyLower (pyStrip query)) (pyLower d.text) from rfl] at this
          rw [this] at hin
          exact Bool.true_eq_false.mp hin
        · rw [if_neg hsc] at hfd
          exact absurd hfd (by simp)

/-- Witness for C6: one document containing "triangulation" three times
scores exactly 3 + 1 = 4 and is returned; the theorem instantiated at that
corpus. -/
theorem c6_witness :
    (keyword_fallback [⟨"d1", "xx Triangulation yy triangulation triangulation"⟩]
        "triangulation" 5).map Passage.score = [4] ∧
    pyCount (pyLower (pyStrip "triangulation"))
      (pyLower "xx Triangulation yy triangulation triangulation") = 3 ∧
    ((keyword_fallback [⟨"d1", "xx Triangulation yy triangulation triangulation"⟩]
        "triangulation" 5).length ≤ 5 ∧
     (keyword_fallback [⟨"d1", "xx Triangulation yy triangulation triangulation"⟩]
        "triangulation" 5).Pairwise (fun a b => b.score ≤ a.score) ∧
     ∀ e ∈ keyword_fallback [⟨"d1", "xx Triangulation yy triangulation triangulation"⟩]
        "triangulation" 5,
       ∃ d ∈ [(⟨"d1", "xx Triangulation yy triangulation triangulation"⟩ : Doc)],
         e.text = first2000 d.text ∧ e.source = d.source ∧
         pyIn (pyLower (pyStrip "triangulation")) (pyLower d.text) = true ∧
         e.score = (pyCount (pyLower (pyStrip "triangulation")) (pyLower d.text) : Int) + 1) :=
  ⟨by decide, by decide,
   c6_keyword_scoring [⟨"d1", "xx Triangulation yy triangulation triangulation"⟩]
     "triangulation" 5 (by decide)⟩

/-- C1 (confirmed): for steps 5-9 on a mixed path whose step spec is flagged
`inherits_from_chosen_methodology`: with the methodology unset (Python-falsy),
both resolvers return the holding configuration/message directing the student
to step 4; with a methodology chosen and a non-empty mixed addendum, the
effective config is the chosen methodology's spec with
`"{inherited}\n{addendum}"` as guidance (just the addendum when the inherited
guidance is empty). -/
theorem c1_mixed_inheritance (cfg : PathsConfig) (sess : SessionData) (step : Nat)
    (h5 : 5 ≤ step) (h9 : step ≤ 9)
    (hres : sess.resolved_path = some "mixed")
    (hflag : (getStepSpec cfg "mixed" step).inherits_from_chosen_methodology = true) :
    (optTruthyVal sess.chosen_methodology = none →
      get_step_config cfg sess step = specHoldingConfig step ∧
      get_step_llm_guidance cfg sess (some step) =
        some "The student has not yet chosen their primary methodology in Step 4.") ∧
    (∀ chosen, optTruthyVal sess.chosen_methodology = some chosen →
      (getStepSpec cfg "mixed" step).llm_guidance_addendum.getD "" ≠ "" →
      get_step_config cfg sess step = specMixedInheritedConfig cfg chosen step ∧
      get_step_llm_guidance cfg sess (some step) =
        some (specMergedGuidance ((getStepSpec cfg chosen step).llm_guidance.getD "")
          ((getStepSpec cfg "mixed" step).llm_guidance_addendum.getD ""))) := by
  have hn3 : ¬ step ≤ 3 := by omega
  have hn4 : ¬ step < 4 := by omega
  have hmx : optTruthyVal (some "mixed") = some "mixed" := rfl
  constructor
  · intro hchosen
    constructor
    · simp [get_step_config, hn3, hres, hmx, h5, hflag, hchosen,
        specHoldingConfig, defaultResp]
    · simp [get_step_llm_guidance, hn4, hres, hmx, h5, hflag, hchosen]
  · intro chosen hchosen hadd
    by_cases hg0 : (getStepSpec cfg chosen step).llm_guidance.getD "" = ""
    · constructor
      · simp [get_step_config, hn3, hres, hmx, h5, hflag, hchosen, hadd,
          hg0, specMixedInheritedConfig, specMergedGuidance]
      · simp [get_step_llm_guidance, hn4, hres, hmx, h5, hflag, hchosen,
          hadd, hg0, specMergedGuidance]
    · have hne : (getStepSpec cfg chosen step).llm_guidance.getD "" ++ "\n" ++
          (getStepSpec cfg "mixed" step).llm_guidance_addendum.getD "" ≠ "" :=
        append_right_ne_empty _ _ hadd
      constructor
      · simp [get_step_config, hn3, hres, hmx, h5, hflag, hchosen, hadd,
          hg0, hne, specMixedInheritedConfig, specMergedGuidance]
      · simp [get_step_llm_guidance, hn4, hres, hmx, h5, hflag, hchosen,
          hadd, hg0, hne, specMergedGuidance]
/-- Witness for C1: the theorem instantiated at the concrete configuration,
once with the methodology unset and once with "qualitative" chosen. -/
theorem c1_witness :
    (get_step_config wCfg wSessMixedNone 6 = specHoldingConfig 6 ∧
     get_step_llm_guidance wCfg wSessMixedNone (some 6) =
       some "The student has not yet chosen their primary methodology in Step 4.") ∧
    (get_step_config wCfg wSessMixedQual 6 = specMixedInheritedConfig wCfg "qualitative" 6 ∧
     get_step_llm_guidance wCfg wSessMixedQual (some 6) =
       some (specMergedGuidance ((getStepSpec wCfg "qualitative" 6).llm_guidance.getD "")
         ((getStepSpec wCfg "mixed" 6).llm_guidance_addendum.getD ""))) :=
  ⟨(c1_mixed_inheritance wCfg wSessMixedNone 6 (by decide) (by decide) rfl
      (by decide)).1 rfl,
   (c1_mixed_inheritance wCfg wSessMixedQual 6 (by decide) (by decide) rfl
      (by decide)).2 "qualitative" rfl (by decide)⟩

/-- C7 (confirmed): for steps 5–9 on a non-mixed path, when a chosen
methodology differs from the resolved path and the override path has a spec
for the step, both resolvers return the override methodology's own spec in
full — no addendum concatenation. -/
theorem c7_override_full_substitution (cfg : PathsConfig) (sess : SessionData)
    (step : Nat) (r m : String) (ov : StepSpec)
    (h5 : 5 ≤ step) (h9 : step ≤ 9)
    (hres : sess.resolved_path = some r) (hrne : r ≠ "") (hrm : r ≠ "mixed")
    (hch : optTruthyVal sess.chosen_methodology = some m) (hdiff : m ≠ r)
    (hov : getStepSpecOpt cfg m step = some ov) :
    get_step_config cfg sess step = specOverrideConfig r ov step ∧
    get_step_llm_guidance cfg sess (some step) = ov.llm_guidance := by
  have hn3 : ¬ step ≤ 3 := by omega
  have hn4 : ¬ step < 4 := by omega
  have hr : optTruthyVal (some r) = some r := by simp [optTruthyVal, hrne]
  constructor
  · simp [get_step_config, hn3, hres, hr, h5, hrm, hch, hdiff, hov,
      specOverrideConfig]
  · simp [get_step_llm_guidance, hn4, hres, hr, h5, hrm, hch, hdiff, hov]

/-- Witness for C7: `resolved_path="quantitative"`,
`chosen_methodology="qualitative"`, step 7 resolves to qualitative's own
step-7 spec. -/
theorem c7_witness :
    get_step_config wCfg wSessQuantQual 7 =
      specOverrideConfig "quantitative"
        ⟨some "QT7", some "QD7", none, none, none, none, some "QG7", false, none⟩ 7 ∧
    get_step_llm_guidance wCfg wSessQuantQual (some 7) =
      (⟨some "QT7", some "QD7", none, none, none, none, some "QG7", false,
        none⟩ : StepSpec).llm_guidance :=
  c7_override_full_substitution wCfg wSessQuantQual 7 "quantitative" "qualitative"
    ⟨some "QT7", some "QD7", none, none, none, none, some "QG7", false, none⟩
    (by decide) (by decide) rfl (by decide) (by decide) rfl (by decide) rfl

/-- C8 (confirmed): when `set_methodology` changes an existing (truthy) choice
to a different valid methodology, the step notes for steps 5–9 are removed,
the step-4 note gains the `chosen_methodology` entry (its other entries
preserved), every other step note is untouched, and the rest of the session
state is unchanged except `chosen_methodology` itself. -/
theorem c8_methodology_change_clears_steps (sess : SessionData) (m prev : String)
    (hprev : optTruthyVal sess.chosen_methodology = some prev)
    (hvalid : pyLower (pyStrip m) = "quantitative" ∨ pyLower (pyStrip m) = "qualitative")
    (hchange : prev ≠ pyLower (pyStrip m)) :
    ∃ sess', set_methodology sess m = .ok sess' ∧
      sess'.chosen_methodology = some (pyLower (pyStrip m)) ∧
      (∀ s, 5 ≤ s → s ≤ 9 → dGet sess'.step_notes (toString s) = none) ∧
      dGet sess'.step_notes "4" =
        some (dSet ((dGet sess.step_notes "4").getD []) "chosen_methodology"
          (pyLower (pyStrip m))) ∧
      (∀ key, key ∉ (["4", "5", "6", "7", "8", "9"] : List String) →
        dGet sess'.step_notes key = dGet sess.step_notes key) ∧
      sess'.id = sess.id ∧ sess'.resolved_path = sess.resolved_path ∧
      sess'.worldview_band = sess.worldview_band := by
  have hvb : (pyLower (pyStrip m) != "quantitative" &&
      pyLower (pyStrip m) != "qualitative") = false := by
    rcases hvalid with h | h <;> simp [h]
  have hpb : (prev != pyLower (pyStrip m)) = true := by
    simp [bne]
    exact hchange
  have hrange : List.range' 5 5 = [5, 6, 7, 8, 9] := by decide
  set N := dPop (dPop (dPop (dPop (dPop sess.step_notes "5") "6") "7") "8") "9" with hN
  have hget1 : ∀ key, key ∉ (["5", "6", "7", "8", "9"] : List String) →
      dGet N key = dGet sess.step_notes key := by
    intro key hk
    simp only [List.mem_cons, List.not_mem_nil, or_false, not_or] at hk
    rw [hN, dGet_dPop_ne _ _ _ hk.2.2.2.2, dGet_dPop_ne _ _ _ hk.2.2.2.1,
      dGet_dPop_ne _ _ _ hk.2.2.1, dGet_dPop_ne _ _ _ hk.2.1,
      dGet_dPop_ne _ _ _ hk.1]
  have hgone : ∀ s, 5 ≤ s → s ≤ 9 → dGet N (toString s) = none := by
    intro s hs5 hs9
    interval_cases s
    · rw [hN, dGet_dPop_ne _ _ _ (by decide), dGet_dPop_ne _ _ _ (by decide),
        dGet_dPop_ne _ _ _ (by decide), dGet_dPop_ne _ _ _ (by decide)]
      exact dGet_dPop_self _ _
    · rw [hN, dGet_dPop_ne _ _ _ (by decide), dGet_dPop_ne _ _ _ (by decide),
        dGet_dPop_ne _ _ _ (by decide)]
      exact dGet_dPop_self _ _
    · rw [hN, dGet_dPop_ne _ _ _ (by decide), dGet_dPop_ne _ _ _ (by decide)]
      exact dGet_dPop_self _ _
    · rw [hN, dGet_dPop_ne _ _ _ (by decide)]
      exact dGet_dPop_self _ _
    · rw [hN]
      exact dGet_dPop_self _ _
  refine ⟨{ sess with
      chosen_methodology := some (pyLower (pyStrip m)),
      step_notes := dSet N "4"
        (dSet ((dGet N "4").getD []) "chosen_methodology" (pyLower (pyStrip m))) },
    ?_, rfl, ?_, ?_, ?_, rfl, rfl, rfl⟩
  · rw [set_methodology, if_neg (by simp [hvb])]
    rw [hprev]
    simp only [hpb, if_true, hrange, hN]
    rfl
  · intro s hs5 hs9
    show dGet (dSet N "4" _) (toString s) = none
    rw [dGet_dSet_ne _ _ _ _ (by interval_cases s <;> decide)]
    exact hgone s hs5 hs9
  · show dGet (dSet N "4" _) "4" = _
    rw [dGet_dSet_self, hget1 "4" (by decide)]
  · intro key hk
    show dGet (dSet N "4" _) key = _
    have h4 : key ≠ "4" := by
      intro hc
      exact hk (by rw [hc]; decide)
    rw [dGet_dSet_ne _ _ _ _ h4]
    refine hget1 key ?_
    intro hc
    apply hk
    simp only [List.mem_cons, List.not_mem_nil, or_false] at hc ⊢
    tauto

/-- Witness for C8: changing a previous "quantitative" choice to
"qualitative" on a session with notes for steps 1, 4, 5 and 7. -/
theorem c8_witness :
    ∃ sess', set_methodology wSessPrevQuant "  Qualitative " = .ok sess' ∧
      sess'.chosen_methodology = some (pyLower (pyStrip "  Qualitative ")) ∧
      (∀ s, 5 ≤ s → s ≤ 9 → dGet sess'.step_notes (toString s) = none) ∧
      dGet sess'.step_notes "4" =
        some (dSet ((dGet wSessPrevQuant.step_notes "4").getD []) "chosen_methodology"
          (pyLower (pyStrip "  Qualitative "))) ∧
      (∀ key, key ∉ (["4", "5", "6", "7", "8", "9"] : List String) →
        dGet sess'.step_notes key = dGet wSessPrevQuant.step_notes key) ∧
      sess'.id = wSessPrevQuant.id ∧
      sess'.resolved_path = wSessPrevQuant.resolved_path ∧
      sess'.worldview_band = wSessPrevQuant.worldview_band :=
  c8_methodology_change_clears_steps wSessPrevQuant "  Qualitative " "quantitative"
    (by decide) (by decide) (by decide)

/-- C10 (confirmed): `set_methodology` rejects (HTTP 400, before touching any
session state) every request whose trimmed lowercased methodology is not
exactly "quantitative" or "qualitative" — "mixed" included — and on success
the stored `chosen_methodology` is always one of the two literals. -/
theorem c10_methodology_validation :
    (∀ (sess : SessionData) (m : String),
      pyLower (pyStrip m) ≠ "quantitative" → pyLower (pyStrip m) ≠ "qualitative" →
      set_methodology sess m = .error 400) ∧
    (∀ (sess sess' : SessionData) (m : String),
      set_methodology sess m = .ok sess' →
      sess'.chosen_methodology = some "quantitative" ∨
      sess'.chosen_methodology = some "qualitative") := by
  constructor
  · intro sess m h1 h2
    rw [set_methodology, if_pos (by simp [bne, h1, h2])]
  · intro sess sess' m hok
    rw [set_methodology] at hok
    by_cases hv : (pyLower (pyStrip m) != "quantitative" &&
        pyLower (pyStrip m) != "qualitative") = true
    · rw [if_pos hv] at hok
      exact absurd hok (by simp)
    · rw [if_neg hv] at hok
      have hinj := Except.ok.inj hok
      have hch : sess'.chosen_methodology = some (pyLower (pyStrip m)) := by
        rw [← hinj]
      have hv' : ¬ ((pyLower (pyStrip m) != "quantitative") = true ∧
          (pyLower (pyStrip m) != "qualitative") = true) := by
        intro hc
        exact hv (by simp [hc.1, hc.2])
      rcases not_and_or.mp hv' with h | h
      · left
        rw [hch]
        have heq : pyLower (pyStrip m) = "quantitative" := by
          simpa [bne_iff_ne] using h
        rw [heq]
      · right
        rw [hch]
        have heq : pyLower (pyStrip m) = "qualitative" := by
          simpa [bne_iff_ne] using h
        rw [heq]

/-- Witness for C10: "mixed" is rejected with 400; a successful normalised
"  Quantitative " request stores one of the two valid literals. -/
theorem c10_witness :
    set_methodology wSessMixedNone "mixed" = .error 400 ∧
    ((⟨"s1", some "mixed", some "quantitative", none,
        [("4", [("chosen_methodology", "quantitative")])]⟩ : SessionData).chosen_methodology =
          some "quantitative" ∨
     (⟨"s1", some "mixed", some "quantitative", none,
        [("4", [("chosen_methodology", "quantitative")])]⟩ : SessionData).chosen_methodology =
          some "qualitative") :=
  ⟨c10_methodology_validation.1 wSessMixedNone "mixed" (by decide) (by decide),
   c10_methodology_validation.2 wSessMixedNone
     ⟨"s1", some "mixed", some "quantitative", none,
      [("4", [("chosen_methodology", "quantitative")])]⟩
     "  Quantitative " (by decide)⟩

end Claims

end Hopscotch
